import Mathlib

/-!
# Request handlers of the content service (`server/handlers.go`)

A shallow embedding of the five HTTP handlers of package `server`.  A handler
is a function from the server state and the outcomes of the collaborators it
calls (response writer, path resolution, encoder, map iteration order) to the
list of effects it performs, in program order.
-/

namespace server

/-! ## Go values -/

/-- A Go `error` value, identified by its message. -/
abbrev GoError := String

/-- A Go `[]byte`. -/
abbrev Bytes := List Nat

/-- A Go slice: either the nil slice or a (possibly empty) allocated one.
Capacity is not observable by the handlers and is left out. -/
inductive GoSlice (α : Type) where
  | nil : GoSlice α
  | mk (elems : List α) : GoSlice α
  deriving DecidableEq, Repr

namespace GoSlice

/-- The Go expression `make([]T, 0, capacity)`: an allocated slice of length zero. -/
def make0 {α : Type} (_capacity : Nat) : GoSlice α := GoSlice.mk []

/-- The Go builtin `append(s, x)`. -/
def append {α : Type} : GoSlice α → α → GoSlice α
  | GoSlice.nil, x => GoSlice.mk [x]
  | GoSlice.mk l, x => GoSlice.mk (l ++ [x])

/-- The `encoding/json` rendering of a slice, given the rendering of an element:
a nil slice encodes as `null`, any other slice as a JSON array. -/
def toJSON {α : Type} (elem : α → String) : GoSlice α → String
  | GoSlice.nil => "null"
  | GoSlice.mk l => "[" ++ ",".intercalate (l.map elem) ++ "]"

end GoSlice

/-- A Go map: a finite set of key/value entries with pairwise distinct keys.
The nil map has no entries. -/
structure GoMap (κ ν : Type) where
  isNil : Bool
  entries : List (κ × ν)
  nil_entries : isNil = true → entries = []
  nodup_keys : (entries.map Prod.fst).Nodup

namespace GoMap

/-- The Go builtin `len(m)`. -/
def len {κ ν : Type} (m : GoMap κ ν) : Nat := m.entries.length

/-- The nil map. -/
def nilMap {κ ν : Type} : GoMap κ ν := ⟨true, [], fun _ => rfl, List.nodup_nil⟩

/-- The map literal with no entries (allocated, not nil). -/
def emptyMap {κ ν : Type} : GoMap κ ν := ⟨false, [], fun h => (by cases h), List.nodup_nil⟩

end GoMap

/-- The order in which a `for ... range m` statement visits the entries of a
map.  Go leaves the order unspecified; every entry is visited exactly once. -/
abbrev RangeOrder (α : Type) := List α → List α

/-- A range order is lawful when it visits each entry exactly once. -/
def RangeOrder.Lawful {α : Type} (ρ : RangeOrder α) : Prop := ∀ l, (ρ l).Perm l

/-! ## Data model -/

/-- Modelled from the spec: `groups.Group`, declared in package `groups`; a named
category with an identifier and descriptive attributes. -/
structure Group where
  id : String
  name : String
  tags : List String
  deriving DecidableEq, Repr

/-- Modelled from the spec: the `Plugin` part of a rule content, declared in
package `content`; the handlers read its `PythonModule` field. -/
structure RulePluginInfo where
  PythonModule : String
  deriving DecidableEq, Repr

/-- Modelled from the spec: `content.RuleContent`, declared in package `content`;
a plugin identifier together with a rule body the handlers never inspect. -/
structure RuleContent where
  Plugin : RulePluginInfo
  Body : Bytes
  deriving DecidableEq, Repr

/-- Modelled from the spec: `content.RuleContentDirectory`, declared in package
`content`; the catalog, a mapping from rule identifier to rule content. -/
structure RuleContentDirectory where
  Rules : GoMap String RuleContent

/-- Modelled from the spec: the server configuration, of which the handlers read
the path of the OpenAPI specification file. -/
structure Configuration where
  APISpecFile : String

/-- Modelled from the spec: `HTTPServer`, declared elsewhere in package `server`;
the handlers read its `Config`, `Content` and `Groups` fields. -/
structure HTTPServer where
  Config : Configuration
  Content : RuleContentDirectory
  Groups : GoMap String Group

/-! ## Response envelopes (package `responses`) -/

/-- A value stored in an envelope field. -/
inductive Payload where
  | text (s : String)
  | names (s : GoSlice String)
  | groups (s : GoSlice Group)
  deriving DecidableEq, Repr

/-- A response envelope, a Go `map[string]interface{}` given by its fields. -/
structure Envelope where
  fields : List (String × Payload)
  deriving DecidableEq, Repr

/-- Modelled from the spec: `responses.BuildOkResponse`, the minimal success
envelope with the fixed status marker and no payload. -/
def BuildOkResponse : Envelope := ⟨[("status", Payload.text "ok")]⟩

/-- Modelled from the spec: `responses.BuildOkResponseWithData`, the success
envelope carrying one named field. -/
def BuildOkResponseWithData (dataName : String) (data : Payload) : Envelope :=
  ⟨[("status", Payload.text "ok"), (dataName, data)]⟩

/-- The keys of an envelope other than the status marker. -/
def Envelope.payloadKeys (e : Envelope) : List String :=
  (e.fields.map Prod.fst).filter (fun k => k != "status")

/-- The value stored under a key of an envelope. -/
def Envelope.get (e : Envelope) (key : String) : Option Payload :=
  (e.fields.find? (fun kv => kv.1 == key)).map Prod.snd

/-- The `encoding/json` rendering of an envelope field holding a slice, given
the rendering of its elements. -/
def Payload.sliceJSON (str : String → String) (grp : Group → String) : Payload → String
  | Payload.text s => str s
  | Payload.names s => s.toJSON str
  | Payload.groups s => s.toJSON grp

/-- The constant `http.StatusOK`. -/
def StatusOK : Nat := 200

/-! ## Effects -/

/-- Severity of a log entry. -/
inductive Level where
  | error
  deriving DecidableEq, Repr

/-- What a handler does to the outside world, one constructor per collaborator
call that has an observable result. -/
inductive Effect where
  /-- The call `responses.SendOK(writer, envelope)`. -/
  | sendOK (envelope : Envelope)
  /-- The call `responses.Send(status, writer, data)` with a byte slice. -/
  | send (status : Nat) (data : Bytes)
  /-- The call `http.ServeFile(writer, request, path)`. -/
  | serveFile (path : String)
  /-- A log entry written to the log sink. -/
  | logEntry (level : Level) (err : Option GoError) (msg : String)
  /-- The call `handleServerError(err)`. -/
  | handleServerError (err : GoError)
  deriving DecidableEq, Repr

/-- The response writer as the handlers see it: the error, if any, returned by
each of the two ways of writing a response. -/
structure ResponseWriter where
  sendOK : Envelope → Option GoError
  send : Nat → Bytes → Option GoError

/-- A `zerolog` event under construction.  Nothing is written until the event is
finished with `Msg`. -/
structure LogEvent where
  level : Level
  err : Option GoError
  deriving DecidableEq, Repr

/-- The call `log.Error()`: starts an event of level error. -/
def log.Error : LogEvent := ⟨Level.error, none⟩

/-- The call `.Err(err)`: attaches an error to the event. -/
def LogEvent.Err (e : LogEvent) (err : GoError) : LogEvent := ⟨e.level, some err⟩

/-- The call `.Msg(msg)`: writes the event as one log entry. -/
def LogEvent.Msg (e : LogEvent) (msg : String) : List Effect :=
  [Effect.logEntry e.level e.err msg]

/-- An event used as an expression statement: it is built and dropped, and no
log entry is written. -/
def LogEvent.dropped (_e : LogEvent) : List Effect := []

/-- Modelled from the spec: `handleServerError`, defined elsewhere in package
`server`; the single generic server error path, which turns the error into the
failure seen by the client.  A call is recorded as one effect carrying the error
it was given. -/
def handleServerError (err : GoError) : List Effect := [Effect.handleServerError err]

/-! ## The handlers -/

/-- The handler `mainEndpoint` for the `/` endpoint.  The parameter
`responseDataError` is the package constant of that name. -/
def mainEndpoint (responseDataError : String) (_server : HTTPServer)
    (writer : ResponseWriter) : List Effect :=
  Effect.sendOK BuildOkResponse ::
    match writer.sendOK BuildOkResponse with
    | some err => (log.Error.Err err).Msg responseDataError ++ handleServerError err
    | none => []

/-- The handler `serveAPISpecFile`; `abs` is `filepath.Abs`. -/
def serveAPISpecFile (abs : String → Except GoError String) (server : HTTPServer) :
    List Effect :=
  match abs server.Config.APISpecFile with
  | Except.error err =>
      (log.Error.Err err).Msg "Error creating absolute path of OpenAPI spec file" ++
        handleServerError err
  | Except.ok absPath => [Effect.serveFile absPath]

/-- The slice built by the loop of `listOfGroups`. -/
def collectGroups (ρ : RangeOrder (String × Group)) (server : HTTPServer) : GoSlice Group :=
  (ρ server.Groups.entries).foldl (fun groups kv => groups.append kv.2)
    (GoSlice.make0 server.Groups.len)

/-- The handler `listOfGroups`. -/
def listOfGroups (ρ : RangeOrder (String × Group)) (server : HTTPServer)
    (writer : ResponseWriter) : List Effect :=
  let groups := collectGroups ρ server
  let envelope := BuildOkResponseWithData "groups" (Payload.groups groups)
  Effect.sendOK envelope ::
    match writer.sendOK envelope with
    | some err => (log.Error.Err err).dropped ++ handleServerError err
    | none => []

/-- The handler `getStaticContent`; `encode` is the `gob` encoding of the catalog
into a fresh buffer, returning the buffer contents. -/
def getStaticContent (encode : RuleContentDirectory → Except GoError Bytes)
    (server : HTTPServer) (writer : ResponseWriter) : List Effect :=
  match encode server.Content with
  | Except.error err =>
      (log.Error.Err err).Msg "Cannot encode rules static content" ++ handleServerError err
  | Except.ok encodedContent =>
      Effect.send StatusOK encodedContent ::
        match writer.send StatusOK encodedContent with
        | some err => (log.Error.Err err).dropped ++ handleServerError err
        | none => []

/-- The slice built by the loop of `getRuleNames`. -/
def collectRuleNames (ρ : RangeOrder (String × RuleContent)) (server : HTTPServer) :
    GoSlice String :=
  (ρ server.Content.Rules.entries).foldl
    (fun ruleNames kv => ruleNames.append kv.2.Plugin.PythonModule)
    (GoSlice.make0 server.Content.Rules.len)

/-- The handler `getRuleNames`. -/
def getRuleNames (ρ : RangeOrder (String × RuleContent)) (server : HTTPServer)
    (writer : ResponseWriter) : List Effect :=
  let ruleNames := collectRuleNames ρ server
  let envelope := BuildOkResponseWithData "rules" (Payload.names ruleNames)
  Effect.sendOK envelope ::
    match writer.sendOK envelope with
    | some err => (log.Error.Err err).dropped ++ handleServerError err
    | none => []

/-- Modelled from the spec: the content encoder, whose code is not part of
`handlers.go`.  Encoding fails with an encoding error when some entry of the
catalog cannot be represented in the binary format, and otherwise yields the
bytes of the whole catalog.  Which entries are representable and what the bytes
are is left to the format. -/
def ContentEncoder.encode (representable : RuleContent → Bool)
    (format : RuleContentDirectory → Bytes) (catalog : RuleContentDirectory) :
    Except GoError Bytes :=
  if catalog.Rules.entries.all (fun kv => representable kv.2) then
    Except.ok (format catalog)
  else
    Except.error "EncodingError"

/-! ## Observations on a trace of effects -/

/-- The envelopes handed to `responses.SendOK`, in order. -/
def sentEnvelopes (t : List Effect) : List Envelope :=
  t.filterMap (fun e => match e with | Effect.sendOK env => some env | _ => none)

/-- The raw responses handed to `responses.Send`, in order, as status and body. -/
def sentRaw (t : List Effect) : List (Nat × Bytes) :=
  t.filterMap (fun e => match e with | Effect.send s d => some (s, d) | _ => none)

/-- The paths handed to `http.ServeFile`, in order. -/
def servedFiles (t : List Effect) : List String :=
  t.filterMap (fun e => match e with | Effect.serveFile p => some p | _ => none)

/-- The log entries written, in order, as attached error and message. -/
def logEntries (t : List Effect) : List (Option GoError × String) :=
  t.filterMap (fun e => match e with | Effect.logEntry _ err msg => some (err, msg) | _ => none)

/-- The errors handed to `handleServerError`, in order. -/
def serverErrors (t : List Effect) : List GoError :=
  t.filterMap (fun e => match e with | Effect.handleServerError err => some err | _ => none)

/-- The number of response writes attempted. -/
def writeCount (t : List Effect) : Nat :=
  (sentEnvelopes t).length + (sentRaw t).length

/-! ## Sample data -/

/-- A rule content with the given plugin identifier and an empty body. -/
def sampleRule (pythonModule : String) : RuleContent := ⟨⟨pythonModule⟩, []⟩

/-- The catalog with the two rules `rule.a` and `rule.b`. -/
def catalogAB : RuleContentDirectory :=
  ⟨⟨false, [("rule.a", sampleRule "rule.a"), ("rule.b", sampleRule "rule.b")],
    fun h => (by cases h), by decide⟩⟩

/-- The group `performance`. -/
def performanceGroup : Group := ⟨"performance", "Performance", []⟩

/-- The group set holding only the group `performance`. -/
def groupsPerformance : GoMap String Group :=
  ⟨false, [("performance", performanceGroup)], fun h => (by cases h), by decide⟩

/-- A server holding the two sample rules and the sample group. -/
def sampleServer : HTTPServer := ⟨⟨"openapi.json"⟩, catalogAB, groupsPerformance⟩

/-- A server with an allocated but empty catalog and group set. -/
def emptyServer : HTTPServer := ⟨⟨"openapi.json"⟩, ⟨GoMap.emptyMap⟩, GoMap.emptyMap⟩

/-- A server whose catalog and group set are nil maps. -/
def nilServer : HTTPServer := ⟨⟨""⟩, ⟨GoMap.nilMap⟩, GoMap.nilMap⟩

/-- A response writer on which every write succeeds. -/
def goodWriter : ResponseWriter := ⟨fun _ => none, fun _ _ => none⟩

/-- A response writer on which every write fails. -/
def brokenWriter : ResponseWriter :=
  ⟨fun _ => some "write: broken pipe", fun _ _ => some "write: broken pipe"⟩

/-! ## Lemmas on the collecting loops -/

theorem foldl_append_mk {α β : Type} (f : α → β) (l : List α) (init : List β) :
    l.foldl (fun acc x => GoSlice.append acc (f x)) (GoSlice.mk init)
      = GoSlice.mk (init ++ l.map f) := by
  induction l generalizing init with
  | nil => simp
  | cons x xs ih =>
    have step : GoSlice.append (GoSlice.mk init) (f x) = GoSlice.mk (init ++ [f x]) := rfl
    rw [List.foldl_cons, step, ih]
    simp

theorem collectRuleNames_eq (ρ : RangeOrder (String × RuleContent)) (server : HTTPServer) :
    collectRuleNames ρ server
      = GoSlice.mk ((ρ server.Content.Rules.entries).map (fun kv => kv.2.Plugin.PythonModule)) := by
  unfold collectRuleNames GoSlice.make0
  rw [foldl_append_mk (fun kv : String × RuleContent => kv.2.Plugin.PythonModule)]
  simp

theorem collectGroups_eq (ρ : RangeOrder (String × Group)) (server : HTTPServer) :
    collectGroups ρ server = GoSlice.mk ((ρ server.Groups.entries).map Prod.snd) := by
  unfold collectGroups GoSlice.make0
  rw [foldl_append_mk (fun kv : String × Group => kv.2)]
  simp

theorem sentEnvelopes_getRuleNames (ρ : RangeOrder (String × RuleContent)) (server : HTTPServer)
    (writer : ResponseWriter) :
    sentEnvelopes (getRuleNames ρ server writer)
      = [BuildOkResponseWithData "rules" (Payload.names (collectRuleNames ρ server))] := by
  unfold getRuleNames
  cases h : writer.sendOK
      (BuildOkResponseWithData "rules" (Payload.names (collectRuleNames ρ server))) <;>
    simp [sentEnvelopes, h, LogEvent.dropped, handleServerError]

theorem sentEnvelopes_listOfGroups (ρ : RangeOrder (String × Group)) (server : HTTPServer)
    (writer : ResponseWriter) :
    sentEnvelopes (listOfGroups ρ server writer)
      = [BuildOkResponseWithData "groups" (Payload.groups (collectGroups ρ server))] := by
  unfold listOfGroups
  cases h : writer.sendOK
      (BuildOkResponseWithData "groups" (Payload.groups (collectGroups ρ server))) <;>
    simp [sentEnvelopes, h, LogEvent.dropped, handleServerError]

theorem lawful_reverse {α : Type} : RangeOrder.Lawful (List.reverse : RangeOrder α) :=
  fun l => List.reverse_perm l

/-! ## Rule names -/

/-- C1: for every catalog and every lawful iteration order, the list that
`getRuleNames` sends under the key `rules` has as many elements as the catalog
has entries, each element is the plugin identifier of some entry, every entry's
plugin identifier occurs, and multiplicities are kept (the list is a permutation
of the entries' plugin identifiers). -/
theorem getRuleNames_names_are_catalog_plugins
    (ρ : RangeOrder (String × RuleContent)) (hρ : ρ.Lawful)
    (server : HTTPServer) (writer : ResponseWriter) :
    ∃ names : List String,
      sentEnvelopes (getRuleNames ρ server writer)
          = [BuildOkResponseWithData "rules" (Payload.names (GoSlice.mk names))]
      ∧ (BuildOkResponseWithData "rules" (Payload.names (GoSlice.mk names))).get "rules"
          = some (Payload.names (GoSlice.mk names))
      ∧ names.length = server.Content.Rules.len
      ∧ (∀ n ∈ names, ∃ kv ∈ server.Content.Rules.entries, n = kv.2.Plugin.PythonModule)
      ∧ (∀ kv ∈ server.Content.Rules.entries, kv.2.Plugin.PythonModule ∈ names)
      ∧ names.Perm (server.Content.Rules.entries.map (fun kv => kv.2.Plugin.PythonModule)) := by
  have hperm : ((ρ server.Content.Rules.entries).map (fun kv => kv.2.Plugin.PythonModule)).Perm
      (server.Content.Rules.entries.map (fun kv => kv.2.Plugin.PythonModule)) :=
    (hρ server.Content.Rules.entries).map _
  refine ⟨(ρ server.Content.Rules.entries).map (fun kv => kv.2.Plugin.PythonModule),
    ?_, ?_, ?_, ?_, ?_, hperm⟩
  · rw [sentEnvelopes_getRuleNames, collectRuleNames_eq]
  · simp [Envelope.get, BuildOkResponseWithData, List.find?]
  · rw [hperm.length_eq]
    simp [GoMap.len]
  · intro n hn
    have hn2 := hperm.subset hn
    rcases List.mem_map.mp hn2 with ⟨kv, hkv, rfl⟩
    exact ⟨kv, hkv, rfl⟩
  · intro kv hkv
    exact hperm.symm.subset (List.mem_map.mpr ⟨kv, hkv, rfl⟩)

/-- Witness for C1: the sample catalog iterated in reverse order. -/
theorem getRuleNames_names_are_catalog_plugins_witness :
    RangeOrder.Lawful (List.reverse : RangeOrder (String × RuleContent))
    ∧ ∃ names : List String,
      sentEnvelopes (getRuleNames List.reverse sampleServer goodWriter)
          = [BuildOkResponseWithData "rules" (Payload.names (GoSlice.mk names))]
      ∧ (BuildOkResponseWithData "rules" (Payload.names (GoSlice.mk names))).get "rules"
          = some (Payload.names (GoSlice.mk names))
      ∧ names.length = sampleServer.Content.Rules.len
      ∧ (∀ n ∈ names, ∃ kv ∈ sampleServer.Content.Rules.entries, n = kv.2.Plugin.PythonModule)
      ∧ (∀ kv ∈ sampleServer.Content.Rules.entries, kv.2.Plugin.PythonModule ∈ names)
      ∧ names.Perm (sampleServer.Content.Rules.entries.map (fun kv => kv.2.Plugin.PythonModule)) :=
  ⟨lawful_reverse,
    getRuleNames_names_are_catalog_plugins List.reverse lawful_reverse sampleServer goodWriter⟩

/-- C2: the i-th element of the list sent by `getRuleNames` under `rules` is the
plugin identifier of the i-th entry visited by the iteration over the catalog;
for the catalog with `rule.a` and `rule.b`, visited in that order, the envelope
sent is status `ok` with rules `rule.a`, `rule.b`. -/
theorem getRuleNames_preserves_iteration_order
    (ρ : RangeOrder (String × RuleContent)) (server : HTTPServer) (writer : ResponseWriter) :
    (∃ names : List String,
      sentEnvelopes (getRuleNames ρ server writer)
          = [BuildOkResponseWithData "rules" (Payload.names (GoSlice.mk names))]
      ∧ names.length = (ρ server.Content.Rules.entries).length
      ∧ ∀ i : Nat, names[i]?
          = ((ρ server.Content.Rules.entries)[i]?).map (fun kv => kv.2.Plugin.PythonModule))
    ∧ sentEnvelopes (getRuleNames id ⟨server.Config, catalogAB, server.Groups⟩ writer)
        = [⟨[("status", Payload.text "ok"),
             ("rules", Payload.names (GoSlice.mk ["rule.a", "rule.b"]))]⟩] := by
  refine ⟨⟨(ρ server.Content.Rules.entries).map (fun kv => kv.2.Plugin.PythonModule),
    ?_, ?_, ?_⟩, ?_⟩
  · rw [sentEnvelopes_getRuleNames, collectRuleNames_eq]
  · simp
  · intro i
    simp [List.getElem?_map]
  · rw [sentEnvelopes_getRuleNames, collectRuleNames_eq]
    rfl

/-- The same catalog visited in the other order yields the names in the other
order. -/
theorem getRuleNames_reverse_order (writer : ResponseWriter) :
    sentEnvelopes (getRuleNames List.reverse sampleServer writer)
      = [⟨[("status", Payload.text "ok"),
           ("rules", Payload.names (GoSlice.mk ["rule.b", "rule.a"]))]⟩] := by
  rw [sentEnvelopes_getRuleNames, collectRuleNames_eq]
  rfl

/-! ## Groups -/

/-- C3: for every group set and every lawful iteration order, `listOfGroups`
sends one success envelope whose only payload field is `groups`, holding a
permutation of the group values of the map (same length, nothing added, nothing
dropped); for the set holding only `performance` the payload is that one group. -/
theorem listOfGroups_sends_all_groups
    (ρ : RangeOrder (String × Group)) (hρ : ρ.Lawful)
    (server : HTTPServer) (writer : ResponseWriter) :
    (∃ gs : List Group,
      sentEnvelopes (listOfGroups ρ server writer)
          = [BuildOkResponseWithData "groups" (Payload.groups (GoSlice.mk gs))]
      ∧ (BuildOkResponseWithData "groups" (Payload.groups (GoSlice.mk gs))).fields
          = [("status", Payload.text "ok"), ("groups", Payload.groups (GoSlice.mk gs))]
      ∧ (BuildOkResponseWithData "groups" (Payload.groups (GoSlice.mk gs))).payloadKeys
          = ["groups"]
      ∧ gs.Perm (server.Groups.entries.map Prod.snd)
      ∧ gs.length = server.Groups.len)
    ∧ sentEnvelopes (listOfGroups ρ ⟨server.Config, server.Content, groupsPerformance⟩ writer)
        = [⟨[("status", Payload.text "ok"),
             ("groups", Payload.groups (GoSlice.mk [⟨"performance", "Performance", []⟩]))]⟩] := by
  have hperm : ((ρ server.Groups.entries).map Prod.snd).Perm
      (server.Groups.entries.map Prod.snd) := (hρ server.Groups.entries).map _
  refine ⟨⟨(ρ server.Groups.entries).map Prod.snd, ?_, rfl, ?_, hperm, ?_⟩, ?_⟩
  · rw [sentEnvelopes_listOfGroups, collectGroups_eq]
  · simp [Envelope.payloadKeys, BuildOkResponseWithData, List.filter]
  · rw [hperm.length_eq]
    simp [GoMap.len]
  · rw [sentEnvelopes_listOfGroups, collectGroups_eq]
    have h1 : (ρ [("performance", performanceGroup)]).Perm [("performance", performanceGroup)] :=
      hρ _
    have h2 : ρ [("performance", performanceGroup)] = [("performance", performanceGroup)] :=
      List.perm_singleton.mp h1
    show [BuildOkResponseWithData "groups"
      (Payload.groups (GoSlice.mk ((ρ [("performance", performanceGroup)]).map Prod.snd)))] = _
    rw [h2]
    rfl

/-- Witness for C3: the sample group set iterated in reverse order. -/
theorem listOfGroups_sends_all_groups_witness :
    RangeOrder.Lawful (List.reverse : RangeOrder (String × Group))
    ∧ sentEnvelopes (listOfGroups List.reverse sampleServer goodWriter)
        = [⟨[("status", Payload.text "ok"),
             ("groups", Payload.groups (GoSlice.mk [⟨"performance", "Performance", []⟩]))]⟩] :=
  ⟨lawful_reverse,
    (listOfGroups_sends_all_groups List.reverse lawful_reverse sampleServer goodWriter).2⟩

/-! ## Static content -/

/-- When the encoder yields a blob, `getStaticContent` makes one response write,
with status 200 and that blob, and nothing else if the write succeeds. -/
theorem getStaticContent_encoded (encode : RuleContentDirectory → Except GoError Bytes)
    (server : HTTPServer) (writer : ResponseWriter) (blob : Bytes)
    (h : encode server.Content = Except.ok blob) :
    sentRaw (getStaticContent encode server writer) = [(200, blob)]
    ∧ sentEnvelopes (getStaticContent encode server writer) = []
    ∧ writeCount (getStaticContent encode server writer) = 1
    ∧ (getStaticContent encode server writer).head? = some (Effect.send 200 blob)
    ∧ (writer.send 200 blob = none →
        getStaticContent encode server writer = [Effect.send 200 blob]) := by
  cases hw : writer.send 200 blob with
  | none =>
    have ht : getStaticContent encode server writer = [Effect.send 200 blob] := by
      simp [getStaticContent, h, StatusOK, hw]
    rw [ht]
    simp [sentRaw, sentEnvelopes, writeCount]
  | some werr =>
    have ht : getStaticContent encode server writer
        = [Effect.send 200 blob, Effect.handleServerError werr] := by
      simp [getStaticContent, h, StatusOK, hw, LogEvent.dropped, handleServerError]
    rw [ht]
    simp [sentRaw, sentEnvelopes, writeCount]

/-- C5: `getStaticContent` is all or nothing.  When encoding the catalog fails,
the handler logs the failure, hands the encoding error to `handleServerError`
and writes nothing to the response writer; when encoding succeeds, it makes
exactly one response write, with status 200 and the complete encoder output as
body, and no envelope. -/
theorem getStaticContent_all_or_nothing
    (encode : RuleContentDirectory → Except GoError Bytes)
    (server : HTTPServer) (writer : ResponseWriter) :
    (∀ err : GoError, encode server.Content = Except.error err →
      getStaticContent encode server writer
          = [Effect.logEntry Level.error (some err) "Cannot encode rules static content",
             Effect.handleServerError err]
      ∧ serverErrors (getStaticContent encode server writer) = [err]
      ∧ sentRaw (getStaticContent encode server writer) = []
      ∧ sentEnvelopes (getStaticContent encode server writer) = []
      ∧ writeCount (getStaticContent encode server writer) = 0)
    ∧ (∀ blob : Bytes, encode server.Content = Except.ok blob →
      sentRaw (getStaticContent encode server writer) = [(200, blob)]
      ∧ sentEnvelopes (getStaticContent encode server writer) = []
      ∧ writeCount (getStaticContent encode server writer) = 1
      ∧ (getStaticContent encode server writer).head? = some (Effect.send 200 blob)
      ∧ (writer.send 200 blob = none →
          getStaticContent encode server writer = [Effect.send 200 blob])) := by
  constructor
  · intro err h
    have ht : getStaticContent encode server writer
        = [Effect.logEntry Level.error (some err) "Cannot encode rules static content",
           Effect.handleServerError err] := by
      simp [getStaticContent, h, LogEvent.Msg, LogEvent.Err, log.Error, handleServerError]
    rw [ht]
    simp [serverErrors, sentRaw, sentEnvelopes, writeCount]
  · intro blob h
    exact getStaticContent_encoded encode server writer blob h

/-- Witness for C5: an encoder that fails and one that succeeds, on the sample
server. -/
theorem getStaticContent_all_or_nothing_witness :
    (getStaticContent (fun _ => Except.error "gob: unsupported type") sampleServer goodWriter
        = [Effect.logEntry Level.error (some "gob: unsupported type")
             "Cannot encode rules static content",
           Effect.handleServerError "gob: unsupported type"])
    ∧ sentRaw (getStaticContent (fun _ => Except.ok [1, 2, 3]) sampleServer goodWriter)
        = [(200, [1, 2, 3])] :=
  ⟨((getStaticContent_all_or_nothing (fun _ => Except.error "gob: unsupported type")
      sampleServer goodWriter).1 "gob: unsupported type" rfl).1,
   ((getStaticContent_all_or_nothing (fun _ => Except.ok [1, 2, 3])
      sampleServer goodWriter).2 [1, 2, 3] rfl).1⟩

/-! ## Failing response writes -/

/-- When its response write fails, `listOfGroups` hands the error to
`handleServerError` after a single write, and writes no log entry. -/
theorem listOfGroups_write_failure (ρ : RangeOrder (String × Group)) (server : HTTPServer)
    (writer : ResponseWriter) (err : GoError)
    (h : writer.sendOK (BuildOkResponseWithData "groups"
      (Payload.groups (collectGroups ρ server))) = some err) :
    listOfGroups ρ server writer
        = [Effect.sendOK (BuildOkResponseWithData "groups"
            (Payload.groups (collectGroups ρ server))),
           Effect.handleServerError err]
    ∧ logEntries (listOfGroups ρ server writer) = [] := by
  have ht : listOfGroups ρ server writer
      = [Effect.sendOK (BuildOkResponseWithData "groups"
          (Payload.groups (collectGroups ρ server))),
         Effect.handleServerError err] := by
    simp [listOfGroups, h, LogEvent.dropped, handleServerError]
  rw [ht]
  simp [logEntries]

/-- When its response write fails, `getRuleNames` hands the error to
`handleServerError` after a single write, and writes no log entry. -/
theorem getRuleNames_write_failure (ρ : RangeOrder (String × RuleContent))
    (server : HTTPServer) (writer : ResponseWriter) (err : GoError)
    (h : writer.sendOK (BuildOkResponseWithData "rules"
      (Payload.names (collectRuleNames ρ server))) = some err) :
    getRuleNames ρ server writer
        = [Effect.sendOK (BuildOkResponseWithData "rules"
            (Payload.names (collectRuleNames ρ server))),
           Effect.handleServerError err]
    ∧ logEntries (getRuleNames ρ server writer) = [] := by
  have ht : getRuleNames ρ server writer
      = [Effect.sendOK (BuildOkResponseWithData "rules"
          (Payload.names (collectRuleNames ρ server))),
         Effect.handleServerError err] := by
    simp [getRuleNames, h, LogEvent.dropped, handleServerError]
  rw [ht]
  simp [logEntries]

/-- When its response write fails, `getStaticContent` hands the error to
`handleServerError` after a single write, and writes no log entry. -/
theorem getStaticContent_write_failure (encode : RuleContentDirectory → Except GoError Bytes)
    (server : HTTPServer) (writer : ResponseWriter) (blob : Bytes) (err : GoError)
    (henc : encode server.Content = Except.ok blob)
    (h : writer.send StatusOK blob = some err) :
    getStaticContent encode server writer
        = [Effect.send StatusOK blob, Effect.handleServerError err]
    ∧ logEntries (getStaticContent encode server writer) = [] := by
  have ht : getStaticContent encode server writer
      = [Effect.send StatusOK blob, Effect.handleServerError err] := by
    simp [getStaticContent, henc, h, LogEvent.dropped, handleServerError]
  rw [ht]
  simp [logEntries]

/-- When its response write fails, `mainEndpoint` writes one log entry carrying
the error and hands the error to `handleServerError`, after a single write. -/
theorem mainEndpoint_write_failure (responseDataError : String) (server : HTTPServer)
    (writer : ResponseWriter) (err : GoError)
    (h : writer.sendOK BuildOkResponse = some err) :
    mainEndpoint responseDataError server writer
      = [Effect.sendOK BuildOkResponse,
         Effect.logEntry Level.error (some err) responseDataError,
         Effect.handleServerError err] := by
  simp [mainEndpoint, h, LogEvent.Msg, LogEvent.Err, log.Error, handleServerError]

/-- C6, evaluated on a writer whose writes fail with `write: broken pipe`:
`mainEndpoint` writes a log entry, while `listOfGroups`, `getRuleNames` and
`getStaticContent` hand the error to `handleServerError` after one write but
write no log entry at all. -/
theorem write_failure_not_logged :
    logEntries (mainEndpoint "response data error" emptyServer brokenWriter)
        = [(some "write: broken pipe", "response data error")]
    ∧ listOfGroups id emptyServer brokenWriter
        = [Effect.sendOK (BuildOkResponseWithData "groups" (Payload.groups (GoSlice.mk []))),
           Effect.handleServerError "write: broken pipe"]
    ∧ logEntries (listOfGroups id emptyServer brokenWriter) = []
    ∧ getRuleNames id emptyServer brokenWriter
        = [Effect.sendOK (BuildOkResponseWithData "rules" (Payload.names (GoSlice.mk []))),
           Effect.handleServerError "write: broken pipe"]
    ∧ logEntries (getRuleNames id emptyServer brokenWriter) = []
    ∧ getStaticContent (fun _ => Except.ok [1, 2, 3]) emptyServer brokenWriter
        = [Effect.send 200 [1, 2, 3], Effect.handleServerError "write: broken pipe"]
    ∧ logEntries (getStaticContent (fun _ => Except.ok [1, 2, 3]) emptyServer brokenWriter)
        = [] := by
  refine ⟨rfl, rfl, rfl, rfl, rfl, rfl, rfl⟩

/-! ## Empty group set and empty catalog -/

theorem lawful_nil {α : Type} (ρ : RangeOrder α) (hρ : ρ.Lawful) : ρ [] = [] :=
  List.Perm.eq_nil (hρ [])

/-- C7: for a group set with no entries (nil or allocated), `listOfGroups` sends
the success envelope whose `groups` field is an allocated empty slice, which
serialises as `[]` and not as `null`; the handler reaches `handleServerError`
only when the response write fails, and does nothing more than the write when it
succeeds. -/
theorem listOfGroups_empty_group_set
    (ρ : RangeOrder (String × Group)) (hρ : ρ.Lawful)
    (server : HTTPServer) (writer : ResponseWriter)
    (hempty : server.Groups.len = 0) :
    sentEnvelopes (listOfGroups ρ server writer)
        = [BuildOkResponseWithData "groups" (Payload.groups (GoSlice.mk []))]
    ∧ (BuildOkResponseWithData "groups" (Payload.groups (GoSlice.mk []))).get "groups"
        = some (Payload.groups (GoSlice.mk []))
    ∧ (∀ (str : String → String) (grp : Group → String),
        Payload.sliceJSON str grp (Payload.groups (GoSlice.mk [])) = "[]"
        ∧ Payload.sliceJSON str grp (Payload.groups (GoSlice.mk [])) ≠ "null")
    ∧ (writer.sendOK (BuildOkResponseWithData "groups" (Payload.groups (GoSlice.mk []))) = none →
        listOfGroups ρ server writer
          = [Effect.sendOK (BuildOkResponseWithData "groups" (Payload.groups (GoSlice.mk [])))])
    ∧ (serverErrors (listOfGroups ρ server writer) ≠ [] →
        writer.sendOK (BuildOkResponseWithData "groups" (Payload.groups (GoSlice.mk []))) ≠ none) := by
  have hentries : server.Groups.entries = [] := List.length_eq_zero.mp hempty
  have hcollect : collectGroups ρ server = GoSlice.mk [] := by
    rw [collectGroups_eq, hentries, lawful_nil ρ hρ]
    rfl
  have hok : writer.sendOK (BuildOkResponseWithData "groups" (Payload.groups (GoSlice.mk []))) = none →
      listOfGroups ρ server writer
        = [Effect.sendOK (BuildOkResponseWithData "groups" (Payload.groups (GoSlice.mk [])))] := by
    intro hw
    simp [listOfGroups, hcollect, hw]
  refine ⟨?_, ?_, ?_, hok, ?_⟩
  · rw [sentEnvelopes_listOfGroups, hcollect]
  · simp [Envelope.get, BuildOkResponseWithData, List.find?]
  · intro str grp
    constructor
    · rfl
    · show ("[]" : String) ≠ "null"
      decide
  · intro herr hw
    apply herr
    rw [hok hw]
    rfl

/-- Witness for C7: the server whose maps are nil, iterated in reverse order. -/
theorem listOfGroups_empty_group_set_witness :
    RangeOrder.Lawful (List.reverse : RangeOrder (String × Group))
    ∧ nilServer.Groups.len = 0
    ∧ sentEnvelopes (listOfGroups List.reverse nilServer goodWriter)
        = [BuildOkResponseWithData "groups" (Payload.groups (GoSlice.mk []))]
    ∧ listOfGroups List.reverse nilServer goodWriter
        = [Effect.sendOK (BuildOkResponseWithData "groups" (Payload.groups (GoSlice.mk [])))] :=
  ⟨lawful_reverse, rfl,
    (listOfGroups_empty_group_set List.reverse lawful_reverse nilServer goodWriter rfl).1,
    (listOfGroups_empty_group_set List.reverse lawful_reverse nilServer goodWriter rfl).2.2.2.1
      rfl⟩

/-- C8: for a catalog with no entries (nil or allocated), `getRuleNames` sends
the success envelope whose `rules` field is an allocated empty slice, which
serialises as `[]` and not as `null`; and `getStaticContent`, run with the
content encoder, hands the encoded empty catalog to the response writer with
status 200, writes no log entry, and reaches `handleServerError` only when the
response write fails. -/
theorem empty_catalog_is_not_an_error
    (ρ : RangeOrder (String × RuleContent)) (hρ : ρ.Lawful)
    (representable : RuleContent → Bool) (format : RuleContentDirectory → Bytes)
    (server : HTTPServer) (writer : ResponseWriter)
    (hempty : server.Content.Rules.len = 0) :
    (sentEnvelopes (getRuleNames ρ server writer)
        = [BuildOkResponseWithData "rules" (Payload.names (GoSlice.mk []))]
      ∧ (BuildOkResponseWithData "rules" (Payload.names (GoSlice.mk []))).get "rules"
          = some (Payload.names (GoSlice.mk []))
      ∧ (∀ (str : String → String) (grp : Group → String),
          Payload.sliceJSON str grp (Payload.names (GoSlice.mk [])) = "[]"
          ∧ Payload.sliceJSON str grp (Payload.names (GoSlice.mk [])) ≠ "null"))
    ∧ (ContentEncoder.encode representable format server.Content
          = Except.ok (format server.Content)
      ∧ (getStaticContent (ContentEncoder.encode representable format) server writer).head?
          = some (Effect.send 200 (format server.Content))
      ∧ sentRaw (getStaticContent (ContentEncoder.encode representable format) server writer)
          = [(200, format server.Content)]
      ∧ logEntries (getStaticContent (ContentEncoder.encode representable format) server writer)
          = []
      ∧ (writer.send 200 (format server.Content) = none →
          getStaticContent (ContentEncoder.encode representable format) server writer
            = [Effect.send 200 (format server.Content)])
      ∧ (serverErrors
            (getStaticContent (ContentEncoder.encode representable format) server writer) ≠ [] →
          writer.send 200 (format server.Content) ≠ none)) := by
  have hentries : server.Content.Rules.entries = [] := List.length_eq_zero.mp hempty
  have hcollect : collectRuleNames ρ server = GoSlice.mk [] := by
    rw [collectRuleNames_eq, hentries, lawful_nil ρ hρ]
    rfl
  have henc : ContentEncoder.encode representable format server.Content
      = Except.ok (format server.Content) := by
    simp [ContentEncoder.encode, hentries]
  obtain ⟨hraw, -, -, hhead, hok⟩ := getStaticContent_encoded
    (ContentEncoder.encode representable format) server writer (format server.Content) henc
  refine ⟨⟨?_, ?_, ?_⟩, henc, hhead, hraw, ?_, hok, ?_⟩
  · rw [sentEnvelopes_getRuleNames, hcollect]
  · simp [Envelope.get, BuildOkResponseWithData, List.find?]
  · intro str grp
    constructor
    · rfl
    · show ("[]" : String) ≠ "null"
      decide
  · cases hw : writer.send 200 (format server.Content) with
    | none =>
      rw [hok hw]
      rfl
    | some werr =>
      exact (getStaticContent_write_failure _ server writer _ werr henc hw).2
  · intro herr hw
    apply herr
    rw [hok hw]
    rfl

/-- Witness for C8: the server with an allocated empty catalog, iterated in
reverse order, with a format of three fixed bytes in which every rule is
representable. -/
theorem empty_catalog_is_not_an_error_witness :
    RangeOrder.Lawful (List.reverse : RangeOrder (String × RuleContent))
    ∧ emptyServer.Content.Rules.len = 0
    ∧ sentEnvelopes (getRuleNames List.reverse emptyServer goodWriter)
        = [BuildOkResponseWithData "rules" (Payload.names (GoSlice.mk []))]
    ∧ getStaticContent (ContentEncoder.encode (fun _ => true) (fun _ => [1, 2, 3]))
          emptyServer goodWriter
        = [Effect.send 200 [1, 2, 3]] :=
  ⟨lawful_reverse, rfl,
    (empty_catalog_is_not_an_error List.reverse lawful_reverse (fun _ => true)
      (fun _ => [1, 2, 3]) emptyServer goodWriter rfl).1.1,
    (empty_catalog_is_not_an_error List.reverse lawful_reverse (fun _ => true)
      (fun _ => [1, 2, 3]) emptyServer goodWriter rfl).2.2.2.2.2.1 rfl⟩

/-! ## Info -/

/-- C9: `mainEndpoint` performs the same effects for any two server states; the
one envelope it hands to the response writer is the envelope of
`BuildOkResponse`, which holds the status marker `ok` and no payload key. -/
theorem mainEndpoint_independent_of_state (responseDataError : String)
    (serverA serverB : HTTPServer) (writer : ResponseWriter) :
    mainEndpoint responseDataError serverA writer = mainEndpoint responseDataError serverB writer
    ∧ sentEnvelopes (mainEndpoint responseDataError serverA writer) = [BuildOkResponse]
    ∧ sentRaw (mainEndpoint responseDataError serverA writer) = []
    ∧ BuildOkResponse.fields = [("status", Payload.text "ok")]
    ∧ BuildOkResponse.payloadKeys = [] := by
  refine ⟨rfl, ?_, ?_, rfl, ?_⟩
  · cases h : writer.sendOK BuildOkResponse <;>
      simp [mainEndpoint, sentEnvelopes, h, LogEvent.Msg, handleServerError]
  · cases h : writer.sendOK BuildOkResponse <;>
      simp [mainEndpoint, sentRaw, h, LogEvent.Msg, handleServerError]
  · simp [Envelope.payloadKeys, BuildOkResponse]

/-! ## Specification file -/

/-- C10: `serveAPISpecFile` serves a file only when the configured path was made
absolute.  When `filepath.Abs` fails, the error is logged and handed to
`handleServerError`, and `http.ServeFile` is not called; when it succeeds,
`http.ServeFile` is called exactly once, with the absolute path, and
`handleServerError` is not called. -/
theorem serveAPISpecFile_serves_only_resolved_path
    (abs : String → Except GoError String) (server : HTTPServer) :
    (∀ err : GoError, abs server.Config.APISpecFile = Except.error err →
      serveAPISpecFile abs server
          = [Effect.logEntry Level.error (some err)
               "Error creating absolute path of OpenAPI spec file",
             Effect.handleServerError err]
      ∧ logEntries (serveAPISpecFile abs server)
          = [(some err, "Error creating absolute path of OpenAPI spec file")]
      ∧ serverErrors (serveAPISpecFile abs server) = [err]
      ∧ servedFiles (serveAPISpecFile abs server) = [])
    ∧ (∀ absPath : String, abs server.Config.APISpecFile = Except.ok absPath →
      serveAPISpecFile abs server = [Effect.serveFile absPath]
      ∧ servedFiles (serveAPISpecFile abs server) = [absPath]
      ∧ serverErrors (serveAPISpecFile abs server) = []
      ∧ logEntries (serveAPISpecFile abs server) = []) := by
  constructor
  · intro err h
    have ht : serveAPISpecFile abs server
        = [Effect.logEntry Level.error (some err)
             "Error creating absolute path of OpenAPI spec file",
           Effect.handleServerError err] := by
      simp [serveAPISpecFile, h, LogEvent.Msg, LogEvent.Err, log.Error, handleServerError]
    rw [ht]
    simp [logEntries, serverErrors, servedFiles]
  · intro absPath h
    have ht : serveAPISpecFile abs server = [Effect.serveFile absPath] := by
      simp [serveAPISpecFile, h]
    rw [ht]
    simp [logEntries, serverErrors, servedFiles]

/-- Witness for C10: a path resolution that fails, and one that prepends the
working directory `/srv`, on the sample server. -/
theorem serveAPISpecFile_serves_only_resolved_path_witness :
    (serveAPISpecFile (fun _ => Except.error "getwd: no such file or directory") sampleServer
        = [Effect.logEntry Level.error (some "getwd: no such file or directory")
             "Error creating absolute path of OpenAPI spec file",
           Effect.handleServerError "getwd: no such file or directory"])
    ∧ servedFiles (serveAPISpecFile (fun path => Except.ok ("/srv/" ++ path)) sampleServer)
        = ["/srv/openapi.json"] :=
  ⟨((serveAPISpecFile_serves_only_resolved_path
      (fun _ => Except.error "getwd: no such file or directory") sampleServer).1
      "getwd: no such file or directory" rfl).1,
   ((serveAPISpecFile_serves_only_resolved_path
      (fun path => Except.ok ("/srv/" ++ path)) sampleServer).2
      "/srv/openapi.json" rfl).2.1⟩

end server
